import Mathlib

/-!
# Verification of the interview orchestration engine

Shallow embedding of the flow-control core of `src/components/InterviewPage.jsx`:
the action resolver inside `askQuestion`, the attempt governor and action switch
inside `handleSubmitAnswer`, the follow-up pause/resume stack, and the session log.
UI, audio and network plumbing are out of scope; the two LLM collaborators are
modelled by their structured outputs (`TurnOutput` for the interviewer LLM,
`Assessment` for the monitor LLM), which the step functions consume as inputs.
-/

namespace MockInterview

/-! ## Constants (source: `ACTION_CODES`, `MAX_ATTEMPTS_PLANNED`, `MAX_FOLLOW_UP_STREAK`) -/

def REPEAT_QUESTION : Int := 1

def CLARIFY_QUESTION : Int := 2

def NEXT_QUESTION : Int := 3

def NEXT_TOPIC : Int := 4

def END_INTERVIEW : Int := 5

def MAX_ATTEMPTS_PLANNED : Nat := 3

def MAX_FOLLOW_UP_STREAK : Nat := 3

/-! ## Data model -/

/-- A topic of the interview plan: a name and an ordered list of question prompts. -/
structure Topic where
  name : String
  questions : List String
  deriving Repr, DecidableEq

/-- The interview plan returned by the planner LLM: an ordered list of topics. -/
structure Plan where
  topics : List Topic
  deriving Repr, DecidableEq

/-- Plan shape validation performed in `handleStartInterview` (lines 883-885):
at least one topic, every topic has a non-empty name and a non-empty question list. -/
def ValidPlan (p : Plan) : Prop :=
  p.topics ≠ [] ∧ ∀ tp ∈ p.topics, tp.name ≠ "" ∧ tp.questions ≠ []

instance : DecidablePred ValidPlan := fun p => by
  unfold ValidPlan
  infer_instance

/-- Output of the interviewer LLM after the normalisation in `callInterviewerLlm`:
a turn kind tag (the source uses the strings `planned` / `follow-up`) and the
utterance text. -/
structure TurnOutput where
  type : String
  text : String
  deriving Repr, DecidableEq

/-- The four quality metrics of an assessment, each nominally in `[0,1]`. -/
structure Metrics where
  accuracy : Rat
  relevance : Rat
  clarity : Rat
  completeness : Rat
  deriving Repr, DecidableEq

/-- Output of the monitor LLM (`callMonitorLlm`): an `AssessmentRecord`-shaped
object.  `actionCode` is an arbitrary integer as delivered by the LLM. -/
structure Assessment where
  topicIndex : Nat
  questionIndex : Nat
  metrics : Metrics
  actionCode : Int
  reason : String
  discussionPoint : Option String
  deriving Repr, DecidableEq

/-- An entry of the session log (`interviewLog`): the spread of the monitor
output plus the turn-kind tag added at append time (line 969). -/
structure LogEntry where
  topicIndex : Nat
  questionIndex : Nat
  metrics : Metrics
  actionCode : Int
  reason : String
  discussionPoint : Option String
  type : String
  deriving Repr, DecidableEq

/-- The paused planned position stored when a follow-up digression begins
(`setPausedState`, lines 790-793). -/
structure PausedState where
  topicIndex : Nat
  questionIndex : Nat
  attempts : Nat
  resumingActionCode : Int
  deriving Repr, DecidableEq

/-- The orchestrator's mutable session state: the React state variables of
`InterviewPage` that participate in flow control. -/
structure SessionState where
  plan : Option Plan
  topicIndex : Nat
  questionIndex : Nat
  attempts : Nat
  log : List LogEntry
  phase : String
  followUpActive : Bool
  followUpQuestionText : Option String
  paused : Option PausedState
  streak : Nat
  deriving Repr, DecidableEq

/-! ## Plan lookups -/

/-- `interviewPlan.topics[t]` with optional-chaining semantics. -/
def topicAt (plan : Option Plan) (t : Nat) : Option Topic :=
  plan.bind fun p => p.topics.get? t

/-- `interviewPlan.topics[t].questions[q]` with optional-chaining semantics. -/
def questionAt (plan : Option Plan) (t q : Nat) : Option String :=
  (topicAt plan t).bind fun tp => tp.questions.get? q

/-- JavaScript truthiness of `plan?.topics[t]?.questions[q]`: the question must
exist and be a non-empty string, since the empty string is falsy in JavaScript
(used by the truthiness tests at lines 806, 949 and 981). -/
def questionTruthy (plan : Option Plan) (t q : Nat) : Bool :=
  match questionAt plan t q with
  | some qt => qt != ""
  | none => false

/-! ## Action resolver (source: `askQuestion`, lines 711-754) -/

/-- Result of the action-resolution prologue of `askQuestion`: the effective
action code, the end flag, the position the session state will move to, and the
topic/question the interviewer LLM is prompted with. -/
structure ResolveResult where
  effectiveActionCode : Int
  endInterview : Bool
  nextStateTopicIndex : Nat
  nextStateQuestionIndex : Nat
  plannedTopicName : String
  plannedQuestionText : String
  deriving Repr, DecidableEq

/-- The action-resolution prologue of `askQuestion` (lines 711-754), as a pure
function of the plan, the position arguments, the requested action code and the
`forceEnd` flag. -/
def resolveAction (plan : Option Plan) (topicIdx questionIdx : Nat)
    (actionCode : Int) (forceEnd : Bool) : ResolveResult :=
  let base : ResolveResult :=
    { effectiveActionCode := actionCode, endInterview := forceEnd,
      nextStateTopicIndex := topicIdx, nextStateQuestionIndex := questionIdx,
      plannedTopicName := "N/A", plannedQuestionText := "N/A" }
  let r :=
    if forceEnd then
      { base with effectiveActionCode := END_INTERVIEW }
    else
      match topicAt plan topicIdx with
      | none =>
        { base with effectiveActionCode := END_INTERVIEW, endInterview := true }
      | some tp =>
        match tp.questions.get? questionIdx with
        | some qText =>
          { base with
            effectiveActionCode :=
              if actionCode = NEXT_TOPIC then NEXT_QUESTION else actionCode,
            plannedTopicName := tp.name, plannedQuestionText := qText }
        | none =>
          match topicAt plan (topicIdx + 1) with
          | some ntp =>
            { base with
              effectiveActionCode := NEXT_TOPIC,
              plannedTopicName := ntp.name,
              plannedQuestionText := (ntp.questions.get? 0).getD "undefined",
              nextStateTopicIndex := topicIdx + 1, nextStateQuestionIndex := 0 }
          | none =>
            { base with
              effectiveActionCode := END_INTERVIEW,
              plannedTopicName := tp.name, endInterview := true }
  if r.effectiveActionCode = END_INTERVIEW then
    { r with
      plannedTopicName := "Interview Conclusion",
      plannedQuestionText := "Provide closing statement." }
  else r

/-- The output normalisation in `callInterviewerLlm` (lines 440-449): an `End`
turn is always tagged `planned`, and an unrecognised kind defaults to `planned`. -/
def normalizeTurnOutput (actionCode : Int) (o : TurnOutput) : TurnOutput :=
  if actionCode = END_INTERVIEW then { o with type := "planned" }
  else if o.type ≠ "planned" ∧ o.type ≠ "follow-up" then { o with type := "planned" }
  else o

/-! ## Follow-up stack helpers (source: `askQuestion`, lines 786-825) -/

/-- Clearing of the follow-up stack and streak performed on the planned path and
on the streak-limit override (lines 800 and 828). -/
def clearFollowUp (s : SessionState) : SessionState :=
  { s with
    followUpActive := false, followUpQuestionText := none,
    paused := none, streak := 0 }

/-- The forced next planned action computed when the follow-up streak limit is
hit (lines 802-820): the next question of the current topic if it exists and is
truthy (line 806 tests the question string for truthiness, so an empty-string
question is skipped), else the first question of the next topic, else `none`
(end of plan). -/
def forcedNextTriple (plan : Option Plan) (t q : Nat) : Option (Nat × Nat × Int) :=
  if questionTruthy plan t (q + 1) then some (t, q + 1, NEXT_QUESTION)
  else if (topicAt plan (t + 1)).isSome then some (t + 1, 0, NEXT_TOPIC)
  else none

/-! ## The `askQuestion` step

`askQuestionGo outs s t q a forceEnd` models one call of `askQuestion(t, q, a,
forceEnd)` on session state `s`, where `outs` is the stream of interviewer-LLM
outputs consumed ( `askQuestion` re-enters itself once when the follow-up streak
limit forces the next planned action, line 823).  An exhausted stream models a
failed collaborator call, whose catch handler transitions to `ENDED` (line 856). -/

def askQuestionGo : List TurnOutput → SessionState → Nat → Nat → Int → Bool → SessionState
  | [], s, _, _, _, _ => { s with phase := "ENDED" }
  | out :: rest, s, topicIdx, questionIdx, actionCode, forceEnd =>
    let r := resolveAction s.plan topicIdx questionIdx actionCode forceEnd
    let o := normalizeTurnOutput r.effectiveActionCode out
    if o.type = "follow-up" ∧ r.effectiveActionCode ≠ END_INTERVIEW then
      if s.streak < MAX_FOLLOW_UP_STREAK then
        { s with
          streak := s.streak + 1,
          paused := some { topicIndex := topicIdx, questionIndex := questionIdx,
                           attempts := s.attempts,
                           resumingActionCode := r.effectiveActionCode },
          followUpActive := true,
          followUpQuestionText := some o.text }
      else
        match forcedNextTriple s.plan topicIdx questionIdx with
        | some (t', q', a') =>
          askQuestionGo rest
            { clearFollowUp s with topicIndex := t', questionIndex := q' } t' q' a' false
        | none => { clearFollowUp s with phase := "ENDED" }
    else
      let s1 := clearFollowUp s
      let s2 :=
        if r.effectiveActionCode = NEXT_QUESTION ∨ r.effectiveActionCode = NEXT_TOPIC then
          { s1 with attempts := 0 }
        else s1
      if r.endInterview ∨ r.effectiveActionCode = END_INTERVIEW then
        { s2 with phase := "ENDED" }
      else
        { s2 with
          topicIndex := r.nextStateTopicIndex,
          questionIndex := r.nextStateQuestionIndex }

/-! ## The `handleSubmitAnswer` step (lines 927-1022) -/

/-- Construction of the log entry appended per answered turn (line 969):
the monitor output spread plus the turn-kind tag. -/
def mkLogEntry (mo : Assessment) (isFollowUp : Bool) : LogEntry :=
  { topicIndex := mo.topicIndex, questionIndex := mo.questionIndex,
    metrics := mo.metrics, actionCode := mo.actionCode, reason := mo.reason,
    discussionPoint := mo.discussionPoint,
    type := if isFollowUp then "follow-up" else "planned" }

/-- The attempt governor (lines 996-1006): only `Repeat`/`Clarify` increment the
counter, and when the incremented counter reaches `MAX_ATTEMPTS_PLANNED` the
action is escalated to `NextQuestion`. -/
def attemptGovern (attempts : Nat) (actionCode : Int) : Nat × Int :=
  if actionCode = REPEAT_QUESTION ∨ actionCode = CLARIFY_QUESTION then
    let n := attempts + 1
    if MAX_ATTEMPTS_PLANNED ≤ n then (n, NEXT_QUESTION) else (n, actionCode)
  else (attempts, actionCode)

/-- The action switch of `handleSubmitAnswer` (lines 1008-1014): computes the
position arguments passed to `askQuestion` and maps an action code outside
`{1..5}` to `End`. -/
def plannedNextTarget (t q : Nat) (a : Int) : Nat × Nat × Int :=
  if a = REPEAT_QUESTION ∨ a = CLARIFY_QUESTION then (t, q, a)
  else if a = NEXT_QUESTION then (t, q + 1, a)
  else if a = NEXT_TOPIC then (t + 1, 0, a)
  else if a = END_INTERVIEW then (t, q, a)
  else (t, q, END_INTERVIEW)

/-- The resume point computed when a follow-up answer has been assessed
(lines 977-987): forward progress relative to the paused position - the next
question when it exists and is truthy (line 981 tests the question string for
truthiness, so an empty-string question is skipped), else the next topic, else
the end of the interview. -/
def resumeFromPause (plan : Option Plan) (t q : Nat) : Nat × Nat × Int :=
  if questionTruthy plan t (q + 1) then (t, q + 1, NEXT_QUESTION)
  else if (topicAt plan (t + 1)).isSome then (t + 1, 0, NEXT_TOPIC)
  else (t + 1, 0, END_INTERVIEW)

/-- Effect on the session state of assessing a follow-up answer, before the
planned flow is resumed (lines 969-975): exactly one log append tagged
`follow-up`, and the follow-up stack is cleared.  The attempt counter is not
touched. -/
def digressionAssessed (s : SessionState) (mo : Assessment) : SessionState :=
  { s with
    log := s.log ++ [mkLogEntry mo true],
    followUpActive := false, followUpQuestionText := none, paused := none }

/-- One `handleSubmitAnswer` step on session state `s`: `mo` is the (shape-valid)
monitor output for the submitted answer and `outs` the interviewer-LLM outputs
consumed by the ensuing `askQuestion` call.  Mirrors lines 927-1022. -/
def handleSubmitAnswerStep (s : SessionState) (mo : Assessment)
    (outs : List TurnOutput) : SessionState :=
  if s.phase = "IN_PROGRESS" then
    match s.followUpActive, s.paused with
    | true, some ps =>
      let rt := resumeFromPause s.plan ps.topicIndex ps.questionIndex
      askQuestionGo outs (digressionAssessed s mo) rt.1 rt.2.1 rt.2.2 false
    | _, _ =>
      if questionTruthy s.plan s.topicIndex s.questionIndex then
        let s1 := { s with log := s.log ++ [mkLogEntry mo s.followUpActive] }
        let g := attemptGovern s.attempts mo.actionCode
        let s2 := { s1 with attempts := g.1 }
        let tgt := plannedNextTarget s.topicIndex s.questionIndex g.2
        askQuestionGo outs s2 tgt.1 tgt.2.1 tgt.2.2 false
      else
        { s with phase := "ENDED" }
  else s

/-! ## Reachable session states -/

/-- The session state seeded when planning completes (lines 562-575), before the
opening `askQuestion(0, 0, NEXT_QUESTION)` call. -/
def initialState (p : Plan) : SessionState :=
  { plan := some p, topicIndex := 0, questionIndex := 0, attempts := 0, log := [],
    phase := "IN_PROGRESS", followUpActive := false, followUpQuestionText := none,
    paused := none, streak := 0 }

/-- Session states reachable by the orchestration loop: the opening
`askQuestion` on a freshly accepted plan, followed by any number of
`handleSubmitAnswer` steps with arbitrary collaborator outputs. -/
inductive Reachable : SessionState → Prop
  | init (p : Plan) (outs : List TurnOutput) :
      Reachable (askQuestionGo outs (initialState p) 0 0 NEXT_QUESTION false)
  | submit (s : SessionState) (mo : Assessment) (outs : List TurnOutput) :
      Reachable s → Reachable (handleSubmitAnswerStep s mo outs)

/-! ## Concrete fixtures used by witnesses and counterexamples -/

def exampleTopic0 : Topic := { name := "React", questions := ["Q00", "Q01"] }

def exampleTopic1 : Topic := { name := "Node", questions := ["Q10"] }

def examplePlan : Plan := { topics := [exampleTopic0, exampleTopic1] }

def goodMetrics : Metrics :=
  { accuracy := 1, relevance := 1, clarity := 1, completeness := 1 }

def assessWith (a : Int) : Assessment :=
  { topicIndex := 0, questionIndex := 0, metrics := goodMetrics, actionCode := a,
    reason := "r", discussionPoint := none }

def plannedOut : TurnOutput := { type := "planned", text := "ok" }

def followUpOut : TurnOutput := { type := "follow-up", text := "F?" }


def outOfRangeMetrics : Metrics :=
  { accuracy := 2, relevance := 1, clarity := 1, completeness := 1 }

def outOfRangeAssessment : Assessment :=
  { topicIndex := 0, questionIndex := 0, metrics := outOfRangeMetrics,
    actionCode := NEXT_QUESTION, reason := "r", discussionPoint := none }


/-- A session state in which a follow-up digression has just been entered:
the opening `askQuestion(0, 0, NEXT_QUESTION)` on the example plan, with the
interviewer LLM answering with a follow-up. -/
def followUpEntered : SessionState :=
  askQuestionGo [followUpOut] (initialState examplePlan) 0 0 NEXT_QUESTION false

/-- A session state whose follow-up streak sits at the ceiling. -/
def streakLimitState : SessionState :=
  { initialState examplePlan with streak := 3 }

/-- A topic whose second question is the empty string.  The plan validation of
`handleStartInterview` (lines 883-885) checks only topic names and question-list
non-emptiness, never individual question strings, so this topic passes
validation - yet the empty question is falsy for the truthiness tests at lines
806, 949 and 981. -/
def emptyQuestionTopic : Topic := { name := "T0", questions := ["Q00", ""] }

/-- A validated plan containing an empty-string question at position `(0, 1)`. -/
def emptyQuestionPlan : Plan := { topics := [emptyQuestionTopic, exampleTopic1] }

/-- A digression entered at position `(0, 0)` of the empty-question plan. -/
def emptyQuestionDigression : SessionState :=
  askQuestionGo [followUpOut] (initialState emptyQuestionPlan) 0 0 NEXT_QUESTION
    false

/-- Resolution of the triple the code resumes with after a digression. -/
def resumeResolve (p : Plan) (t q : Nat) : ResolveResult :=
  resolveAction (some p) (resumeFromPause (some p) t q).1
    (resumeFromPause (some p) t q).2.1 (resumeFromPause (some p) t q).2.2 false

/-- Resolution of `NextQuestion` relative to the paused position `(t, q)`:
the advanced position `(t, q+1)` fed back through the resolver, which is what
the specification describes the resume as. -/
def nextQuestionResolve (p : Plan) (t q : Nat) : ResolveResult :=
  resolveAction (some p) t (q + 1) NEXT_QUESTION false

/-- Agreement between the code's inlined resume computation and a resolution of
`NextQuestion` relative to the paused position: same terminal decision, same
prompted topic and question, and (when not terminal) the same next position. -/
def resumeAgreesWithNextQuestion (p : Plan) (t q : Nat) : Prop :=
  (resumeResolve p t q).endInterview = (nextQuestionResolve p t q).endInterview ∧
  (resumeResolve p t q).plannedTopicName
    = (nextQuestionResolve p t q).plannedTopicName ∧
  (resumeResolve p t q).plannedQuestionText
    = (nextQuestionResolve p t q).plannedQuestionText ∧
  ((resumeResolve p t q).endInterview = false →
    (resumeResolve p t q).nextStateTopicIndex
      = (nextQuestionResolve p t q).nextStateTopicIndex ∧
    (resumeResolve p t q).nextStateQuestionIndex
      = (nextQuestionResolve p t q).nextStateQuestionIndex)

/-- The structural invariant maintained by the orchestration loop: the follow-up
streak never exceeds its ceiling, a cleared follow-up flag means no paused
state, and a paused state always carries the attempt count current at the time
the digression was entered. -/
def Inv (s : SessionState) : Prop :=
  s.streak ≤ MAX_FOLLOW_UP_STREAK ∧
  (s.followUpActive = false → s.paused = none) ∧
  (∀ ps : PausedState, s.paused = some ps → ps.attempts = s.attempts)

/-! ## Basic lemmas about the step functions -/

/-- `askQuestion` never appends to the session log: every branch of
`askQuestionGo` leaves `log` unchanged. -/
theorem askQuestionGo_log (outs : List TurnOutput) :
    ∀ (s : SessionState) (t q : Nat) (a : Int) (f : Bool),
    (askQuestionGo outs s t q a f).log = s.log := by
  induction outs with
  | nil => intro s t q a f; rfl
  | cons out rest ih =>
    intro s t q a f
    simp only [askQuestionGo]
    split
    · split
      · rfl
      · split
        · rename_i t' q' a' heq
          rw [ih]
          rfl
        · rfl
    · split <;> split <;> rfl

theorem inv_askQuestionGo (outs : List TurnOutput) :
    ∀ (s : SessionState) (t q : Nat) (a : Int) (f : Bool),
    Inv s → Inv (askQuestionGo outs s t q a f) := by
  induction outs with
  | nil =>
    intro s t q a f hs
    exact ⟨hs.1, hs.2.1, hs.2.2⟩
  | cons out rest ih =>
    intro s t q a f hs
    simp only [askQuestionGo]
    split
    · split
      · rename_i hstreak
        refine ⟨hstreak, ?_, ?_⟩
        · intro h; simp at h
        · intro ps hps
          simp only [Option.some.injEq] at hps
          subst hps
          rfl
      · split
        · rename_i t' q' a' heq
          apply ih
          exact ⟨Nat.zero_le _, fun _ => rfl, fun ps hps => by simp [clearFollowUp] at hps⟩
        · exact ⟨Nat.zero_le _, fun _ => rfl, fun ps hps => by simp [clearFollowUp] at hps⟩
    · split
      · split
        · exact ⟨Nat.zero_le _, fun _ => rfl, fun ps hps => by simp [clearFollowUp] at hps⟩
        · exact ⟨Nat.zero_le _, fun _ => rfl, fun ps hps => by simp [clearFollowUp] at hps⟩
      · split
        · exact ⟨Nat.zero_le _, fun _ => rfl, fun ps hps => by simp [clearFollowUp] at hps⟩
        · exact ⟨Nat.zero_le _, fun _ => rfl, fun ps hps => by simp [clearFollowUp] at hps⟩

theorem inv_handleSubmitAnswerStep (s : SessionState) (mo : Assessment)
    (outs : List TurnOutput) (hs : Inv s) :
    Inv (handleSubmitAnswerStep s mo outs) := by
  unfold handleSubmitAnswerStep
  split
  · split
    · apply inv_askQuestionGo
      exact ⟨hs.1, fun _ => rfl, fun ps hps => by simp [digressionAssessed] at hps⟩
    · split
      · rename_i hcatch hq
        apply inv_askQuestionGo
        have hpnone : s.paused = none := by
          rcases hfa : s.followUpActive with _ | _
          · exact hs.2.1 hfa
          · rcases hpp : s.paused with _ | ps
            · rfl
            · exact (hcatch ps hfa hpp).elim
        exact ⟨hs.1, fun _ => hpnone, fun ps hps => by rw [hpnone] at hps; cases hps⟩
      · exact ⟨hs.1, hs.2.1, hs.2.2⟩
  · exact hs

theorem reachable_inv (s : SessionState) (hs : Reachable s) : Inv s := by
  induction hs with
  | init p outs =>
    apply inv_askQuestionGo
    exact ⟨Nat.zero_le _, fun _ => rfl, fun ps hps => by cases hps⟩
  | submit s mo outs _ ih =>
    exact inv_handleSubmitAnswerStep s mo outs ih

/-! ## Claim C1 -/

/-- Claim C1 (amended): inside `askQuestion`, when the position argument `(t, q)`
still has a question at index `q` and the requested action is `NextTopic`, the
resolver downgrades the effective action to `NextQuestion`, does not end the
interview, keeps the position at `(t, q)` and asks the question at `(t, q)` of
that same topic.  (The session-level half of the original claim is refuted by
`C1_counterexample`: `handleSubmitAnswer` advances the position to the next
topic before the resolver runs, so a Monitor `NextTopic` request at an
unexhausted topic still abandons the topic.) -/
theorem C1_resolver_downgrades_next_topic (plan : Option Plan) (t q : Nat)
    (tp : Topic) (qt : String)
    (ht : topicAt plan t = some tp) (hq : tp.questions.get? q = some qt) :
    resolveAction plan t q NEXT_TOPIC false =
      { effectiveActionCode := NEXT_QUESTION, endInterview := false,
        nextStateTopicIndex := t, nextStateQuestionIndex := q,
        plannedTopicName := tp.name, plannedQuestionText := qt } := by
  unfold resolveAction
  simp only [ht, hq]
  norm_num [NEXT_TOPIC, NEXT_QUESTION, END_INTERVIEW]

/-- Witness for C1: the resolver downgrade evaluated on a concrete plan. -/
theorem C1_witness :
    resolveAction (some examplePlan) 0 0 NEXT_TOPIC false =
      { effectiveActionCode := NEXT_QUESTION, endInterview := false,
        nextStateTopicIndex := 0, nextStateQuestionIndex := 0,
        plannedTopicName := exampleTopic0.name, plannedQuestionText := "Q00" } :=
  C1_resolver_downgrades_next_topic (some examplePlan) 0 0 exampleTopic0 "Q00" rfl rfl

/-- Counterexample to C1 as stated: with the session at position `(0, 0)` of a
topic that still has questions at indices 0 and 1, a Monitor request of
`NextTopic` moves the session to topic 1 (the conversation does not stay in the
current topic), because `handleSubmitAnswer` computes the advanced position
`(1, 0)` before `askQuestion`'s downgrade runs. -/
theorem C1_counterexample :
    (initialState examplePlan).topicIndex = 0 ∧
    (questionAt (initialState examplePlan).plan 0 0).isSome ∧
    (questionAt (initialState examplePlan).plan 0 1).isSome ∧
    (assessWith NEXT_TOPIC).actionCode = NEXT_TOPIC ∧
    (handleSubmitAnswerStep (initialState examplePlan) (assessWith NEXT_TOPIC)
        [plannedOut]).topicIndex = 1 ∧
    (handleSubmitAnswerStep (initialState examplePlan) (assessWith NEXT_TOPIC)
        [plannedOut]).questionIndex = 0 ∧
    (handleSubmitAnswerStep (initialState examplePlan) (assessWith NEXT_TOPIC)
        [plannedOut]).phase = "IN_PROGRESS" :=
  ⟨rfl, rfl, rfl, rfl, rfl, rfl, rfl⟩

/-! ## Claim C2 -/

/-- Claim C2: for a `Repeat`/`Clarify` verdict the attempt governor escalates to
`NextQuestion` exactly at the ceiling: the incremented retry counter reaches
`MAX_ATTEMPTS_PLANNED` (equivalently, the total attempt count at the question -
the initial attempt plus the granted retries - would exceed the ceiling), never
on an earlier `Repeat`/`Clarify` and never later; otherwise the verdict is kept
verbatim. -/
theorem C2_attempt_governor_exact_ceiling (n : Nat) (a : Int)
    (h : a = REPEAT_QUESTION ∨ a = CLARIFY_QUESTION) :
    ((attemptGovern n a).2 = NEXT_QUESTION ↔ MAX_ATTEMPTS_PLANNED ≤ n + 1) ∧
    ((attemptGovern n a).2 = NEXT_QUESTION ↔ MAX_ATTEMPTS_PLANNED < (n + 1) + 1) ∧
    (attemptGovern n a).1 = n + 1 ∧
    ((attemptGovern n a).2 = NEXT_QUESTION ∨ (attemptGovern n a).2 = a) := by
  have hne : a ≠ NEXT_QUESTION := by
    rcases h with h | h <;> subst h <;> decide
  unfold attemptGovern
  rw [if_pos h]
  by_cases hn : MAX_ATTEMPTS_PLANNED ≤ n + 1
  · rw [if_pos hn]
    have h2 : MAX_ATTEMPTS_PLANNED < (n + 1) + 1 := Nat.lt_succ_of_le hn
    exact ⟨⟨fun _ => hn, fun _ => rfl⟩, ⟨fun _ => h2, fun _ => rfl⟩, rfl, Or.inl rfl⟩
  · rw [if_neg hn]
    have h2 : ¬ MAX_ATTEMPTS_PLANNED < (n + 1) + 1 := fun hx => hn (Nat.lt_succ_iff.mp hx)
    exact ⟨⟨fun hx => (hne hx).elim, fun hx => (hn hx).elim⟩,
           ⟨fun hx => (hne hx).elim, fun hx => (h2 hx).elim⟩, rfl, Or.inr rfl⟩

/-- Witness for C2: the boundary evaluated at the third consecutive `Repeat`
(counter 2 before the verdict). -/
theorem C2_witness :
    ((attemptGovern 2 REPEAT_QUESTION).2 = NEXT_QUESTION ↔ MAX_ATTEMPTS_PLANNED ≤ 2 + 1) ∧
    ((attemptGovern 2 REPEAT_QUESTION).2 = NEXT_QUESTION ↔ MAX_ATTEMPTS_PLANNED < (2 + 1) + 1) ∧
    (attemptGovern 2 REPEAT_QUESTION).1 = 2 + 1 ∧
    ((attemptGovern 2 REPEAT_QUESTION).2 = NEXT_QUESTION ∨
      (attemptGovern 2 REPEAT_QUESTION).2 = REPEAT_QUESTION) :=
  C2_attempt_governor_exact_ceiling 2 REPEAT_QUESTION (Or.inl rfl)

/-! ## Claim C3 -/

/-- Claim C3: when the current topic exists but its questions are exhausted
(`questionIndex` at or past the end) and no next topic exists, the resolver
returns effective action `End` with the terminal flag set, for every requested
action code and every value of the `forceEnd` flag. -/
theorem C3_exhausted_no_next_topic_ends (p : Plan) (t q : Nat) (a : Int) (f : Bool)
    (tp : Topic) (ht : topicAt (some p) t = some tp)
    (hq : tp.questions.length ≤ q) (hn : topicAt (some p) (t + 1) = none) :
    (resolveAction (some p) t q a f).effectiveActionCode = END_INTERVIEW ∧
    (resolveAction (some p) t q a f).endInterview = true := by
  have hq' : tp.questions.get? q = none := List.get?_eq_none.mpr hq
  cases f <;> unfold resolveAction <;> simp only [ht, hq', hn] <;>
    norm_num [END_INTERVIEW]

/-- Witness for C3: a plan whose last topic is exhausted at index 1, evaluated
with a `Repeat` request. -/
theorem C3_witness :
    (resolveAction (some examplePlan) 1 1 REPEAT_QUESTION false).effectiveActionCode
        = END_INTERVIEW ∧
    (resolveAction (some examplePlan) 1 1 REPEAT_QUESTION false).endInterview = true :=
  C3_exhausted_no_next_topic_ends examplePlan 1 1 REPEAT_QUESTION false exampleTopic1
    rfl (by decide) rfl

/-! ## Shape lemmas about the resolver and the submit step -/

/-- In every branch of the resolver, either the terminal flag is clear or the
effective action is `End`. -/
theorem resolve_end_flag_shape (plan : Option Plan) (t q : Nat) (a : Int) :
    ∀ f : Bool, (resolveAction plan t q a f).endInterview = false ∨
      (resolveAction plan t q a f).effectiveActionCode = END_INTERVIEW := by
  intro f
  cases f
  · unfold resolveAction
    rcases hT : topicAt plan t with _ | tp
    · simp only [hT]
      norm_num
    · rcases hQ : tp.questions.get? q with _ | qt
      · rcases hN : topicAt plan (t + 1) with _ | ntp
        · simp only [hT, hQ, hN]
          norm_num
        · simp only [hT, hQ, hN]
          norm_num [NEXT_TOPIC, END_INTERVIEW]
      · simp only [hT, hQ]
        by_cases hA : a = NEXT_TOPIC
        · simp only [if_pos hA]
          norm_num [NEXT_QUESTION, END_INTERVIEW]
        · simp only [if_neg hA]
          by_cases h5 : a = END_INTERVIEW
          · simp [h5]
          · simp [h5]
  · unfold resolveAction
    norm_num

/-- Unpacking an existing question into its topic and text. -/
theorem questionAt_isSome_elim {plan : Option Plan} {t q : Nat}
    (h : (questionAt plan t q).isSome) :
    ∃ tp qt, topicAt plan t = some tp ∧ tp.questions.get? q = some qt := by
  unfold questionAt at h
  rcases hT : topicAt plan t with _ | tp
  · rw [hT] at h
    simp at h
  · rw [hT] at h
    simp only [Option.some_bind] at h
    rcases hQ : tp.questions.get? q with _ | qt
    · rw [hQ] at h
      simp at h
    · exact ⟨tp, qt, rfl, hQ⟩

/-- `askQuestion` invoked with action `End` at a position whose question exists
always lands in the `ENDED` phase, whatever the interviewer LLM outputs. -/
theorem askQuestionGo_end_action (outs : List TurnOutput) (s : SessionState)
    (t q : Nat) (hq : (questionAt s.plan t q).isSome) :
    (askQuestionGo outs s t q END_INTERVIEW false).phase = "ENDED" := by
  obtain ⟨tp, qt, hT, hQ⟩ := questionAt_isSome_elim hq
  have he : (resolveAction s.plan t q END_INTERVIEW false).effectiveActionCode
      = END_INTERVIEW := by
    unfold resolveAction
    simp only [hT, hQ]
    norm_num [NEXT_TOPIC, END_INTERVIEW]
  cases outs with
  | nil => rfl
  | cons out rest =>
    have hno : ¬ ((resolveAction s.plan t q END_INTERVIEW false).effectiveActionCode
          = NEXT_QUESTION ∨
        (resolveAction s.plan t q END_INTERVIEW false).effectiveActionCode
          = NEXT_TOPIC) := by
      rintro (h | h) <;> rw [he] at h <;> exact absurd h (by decide)
    simp only [askQuestionGo]
    rw [if_neg (fun hc => hc.2 he), if_neg hno, if_pos (Or.inr he)]

/-- The planned-answer path of `handleSubmitAnswer` (lines 989-1015), as an
equation: when no digression is active, the step appends the planned log entry,
runs the attempt governor and the action switch, and re-enters `askQuestion`. -/
theorem submit_planned_path (s : SessionState) (mo : Assessment)
    (outs : List TurnOutput)
    (hphase : s.phase = "IN_PROGRESS")
    (hnotfu : s.followUpActive = false ∨ s.paused = none) :
    handleSubmitAnswerStep s mo outs =
      if questionTruthy s.plan s.topicIndex s.questionIndex then
        askQuestionGo outs
          { s with log := s.log ++ [mkLogEntry mo s.followUpActive],
                   attempts := (attemptGovern s.attempts mo.actionCode).1 }
          (plannedNextTarget s.topicIndex s.questionIndex
            (attemptGovern s.attempts mo.actionCode).2).1
          (plannedNextTarget s.topicIndex s.questionIndex
            (attemptGovern s.attempts mo.actionCode).2).2.1
          (plannedNextTarget s.topicIndex s.questionIndex
            (attemptGovern s.attempts mo.actionCode).2).2.2 false
      else { s with phase := "ENDED" } := by
  obtain ⟨plan, ti, qi, att, lg, ph, fua, fqt, pz, st⟩ := s
  dsimp only at hphase hnotfu ⊢
  subst hphase
  rcases hnotfu with hfa | hpz
  · subst hfa
    rfl
  · subst hpz
    cases fua <;> rfl

/-- The digression path of `handleSubmitAnswer` (lines 972-988), as an equation:
with a follow-up active, the step appends the follow-up log entry, clears the
stack and resumes forward from the paused position. -/
theorem submit_followup_path (s : SessionState) (mo : Assessment)
    (outs : List TurnOutput)
    (hphase : s.phase = "IN_PROGRESS") (hfa : s.followUpActive = true)
    (ps : PausedState) (hpp : s.paused = some ps) :
    handleSubmitAnswerStep s mo outs =
      askQuestionGo outs (digressionAssessed s mo)
        (resumeFromPause s.plan ps.topicIndex ps.questionIndex).1
        (resumeFromPause s.plan ps.topicIndex ps.questionIndex).2.1
        (resumeFromPause s.plan ps.topicIndex ps.questionIndex).2.2 false := by
  obtain ⟨plan, ti, qi, att, lg, ph, fua, fqt, pz, st⟩ := s
  dsimp only at hphase hfa hpp ⊢
  subst hphase
  subst hfa
  subst hpp
  rfl

/-- The log effect of one answered turn: exactly one entry appended, tagged by
the turn kind. -/
theorem handleSubmitAnswerStep_log (s : SessionState) (mo : Assessment)
    (outs : List TurnOutput)
    (hphase : s.phase = "IN_PROGRESS")
    (hctx : (s.followUpActive = true ∧ s.paused.isSome) ∨
            questionTruthy s.plan s.topicIndex s.questionIndex) :
    (handleSubmitAnswerStep s mo outs).log
      = s.log ++ [mkLogEntry mo s.followUpActive] := by
  rcases hfa : s.followUpActive with _ | _
  · have hq : questionTruthy s.plan s.topicIndex s.questionIndex := by
      rcases hctx with ⟨h, _⟩ | h
      · rw [hfa] at h
        cases h
      · exact h
    rw [submit_planned_path s mo outs hphase (Or.inl hfa), if_pos hq,
      askQuestionGo_log]
    simp [hfa]
  · rcases hpp : s.paused with _ | ps
    · have hq : questionTruthy s.plan s.topicIndex s.questionIndex := by
        rcases hctx with ⟨_, h⟩ | h
        · rw [hpp] at h
          simp at h
        · exact h
      rw [submit_planned_path s mo outs hphase (Or.inr hpp), if_pos hq,
        askQuestionGo_log]
      simp [hfa, hpp]
    · rw [submit_followup_path s mo outs hphase hfa ps hpp, askQuestionGo_log]
      simp [digressionAssessed, hfa, hpp]

/-! ## Claim C7 -/

/-- Claim C7: whenever `askQuestion` executes a planned turn whose effective
action is `NextQuestion` or `NextTopic`, the attempt counter of the newly
entered position is reset to 0, the position moves to the resolver's next
position, and the interview does not end on that turn. -/
theorem C7_new_position_resets_attempts (out : TurnOutput) (rest : List TurnOutput)
    (s : SessionState) (t q : Nat) (a : Int) (f : Bool)
    (hnf : (normalizeTurnOutput (resolveAction s.plan t q a f).effectiveActionCode
        out).type ≠ "follow-up")
    (hadv : (resolveAction s.plan t q a f).effectiveActionCode = NEXT_QUESTION ∨
            (resolveAction s.plan t q a f).effectiveActionCode = NEXT_TOPIC) :
    (askQuestionGo (out :: rest) s t q a f).attempts = 0 ∧
    (askQuestionGo (out :: rest) s t q a f).topicIndex
      = (resolveAction s.plan t q a f).nextStateTopicIndex ∧
    (askQuestionGo (out :: rest) s t q a f).questionIndex
      = (resolveAction s.plan t q a f).nextStateQuestionIndex ∧
    (askQuestionGo (out :: rest) s t q a f).phase = s.phase := by
  have hend : (resolveAction s.plan t q a f).endInterview = false := by
    rcases resolve_end_flag_shape s.plan t q a f with h | h
    · exact h
    · rcases hadv with ha | ha <;> rw [ha] at h <;> exact absurd h (by decide)
  have hne : (resolveAction s.plan t q a f).effectiveActionCode ≠ END_INTERVIEW := by
    rcases hadv with ha | ha <;> rw [ha] <;> decide
  have hnend : ¬ ((resolveAction s.plan t q a f).endInterview = true ∨
      (resolveAction s.plan t q a f).effectiveActionCode = END_INTERVIEW) := by
    rintro (h | h)
    · rw [hend] at h
      cases h
    · exact hne h
  simp only [askQuestionGo]
  rw [if_neg (fun hc => hnf hc.1), if_pos hadv, if_neg hnend]
  exact ⟨rfl, rfl, rfl, rfl⟩

/-- Witness for C7: asking the second question of the first example topic with
effective action `NextQuestion`. -/
theorem C7_witness :
    (askQuestionGo [plannedOut] (initialState examplePlan) 0 1 NEXT_QUESTION
        false).attempts = 0 ∧
    (askQuestionGo [plannedOut] (initialState examplePlan) 0 1 NEXT_QUESTION
        false).topicIndex
      = (resolveAction (initialState examplePlan).plan 0 1 NEXT_QUESTION
          false).nextStateTopicIndex ∧
    (askQuestionGo [plannedOut] (initialState examplePlan) 0 1 NEXT_QUESTION
        false).questionIndex
      = (resolveAction (initialState examplePlan).plan 0 1 NEXT_QUESTION
          false).nextStateQuestionIndex ∧
    (askQuestionGo [plannedOut] (initialState examplePlan) 0 1 NEXT_QUESTION
        false).phase = (initialState examplePlan).phase :=
  C7_new_position_resets_attempts plannedOut [] (initialState examplePlan) 0 1
    NEXT_QUESTION false (by decide) (Or.inl rfl)

/-! ## Claim C8 -/

/-- Claim C8 (amended): an assessment whose `actionCode` lies outside `{1..5}`
forces `End` and the session reaches the `ENDED` phase.  (The metrics half of
the original claim is refuted by `C8_counterexample`: metric values are never
validated.) -/
theorem C8_invalid_action_code_forces_end (s : SessionState) (mo : Assessment)
    (outs : List TurnOutput)
    (hphase : s.phase = "IN_PROGRESS")
    (hctx : s.followUpActive = false ∨ s.paused = none)
    (hq : (questionAt s.plan s.topicIndex s.questionIndex).isSome)
    (h1 : mo.actionCode ≠ REPEAT_QUESTION) (h2 : mo.actionCode ≠ CLARIFY_QUESTION)
    (h3 : mo.actionCode ≠ NEXT_QUESTION) (h4 : mo.actionCode ≠ NEXT_TOPIC)
    (h5 : mo.actionCode ≠ END_INTERVIEW) :
    (handleSubmitAnswerStep s mo outs).phase = "ENDED" := by
  have hg : attemptGovern s.attempts mo.actionCode = (s.attempts, mo.actionCode) := by
    unfold attemptGovern
    rw [if_neg (fun hc => hc.elim h1 h2)]
  have hpt : plannedNextTarget s.topicIndex s.questionIndex mo.actionCode
      = (s.topicIndex, s.questionIndex, END_INTERVIEW) := by
    unfold plannedNextTarget
    rw [if_neg (fun hc => hc.elim h1 h2), if_neg h3, if_neg h4, if_neg h5]
  by_cases htr : questionTruthy s.plan s.topicIndex s.questionIndex
  · rw [submit_planned_path s mo outs hphase hctx, if_pos htr]
    simp only [hg, hpt]
    exact askQuestionGo_end_action outs _ s.topicIndex s.questionIndex hq
  · rw [submit_planned_path s mo outs hphase hctx, if_neg htr]

/-- Witness for C8: a Monitor action code of 9 ends the session. -/
theorem C8_witness :
    (handleSubmitAnswerStep (initialState examplePlan) (assessWith 9)
        [plannedOut]).phase = "ENDED" :=
  C8_invalid_action_code_forces_end (initialState examplePlan) (assessWith 9)
    [plannedOut] rfl (Or.inl rfl) rfl (by decide) (by decide) (by decide)
    (by decide) (by decide)

/-- Counterexample to C8 as stated: an assessment whose accuracy metric is 2
(outside `[0,1]`) but whose action code is the valid `NextQuestion` is accepted
unvalidated - the step advances normally and the session does not end. -/
theorem C8_counterexample :
    1 < outOfRangeAssessment.metrics.accuracy ∧
    outOfRangeAssessment.actionCode = NEXT_QUESTION ∧
    (handleSubmitAnswerStep (initialState examplePlan) outOfRangeAssessment
        [plannedOut]).phase = "IN_PROGRESS" ∧
    (handleSubmitAnswerStep (initialState examplePlan) outOfRangeAssessment
        [plannedOut]).questionIndex = 1 := by
  refine ⟨by norm_num [outOfRangeAssessment, outOfRangeMetrics], rfl, rfl, rfl⟩

/-! ## Claim C9 -/

/-- Claim C9: the session log receives exactly one appended record per answered
turn and none otherwise: `askQuestion` (asking, including repeated re-asks)
never touches the log, and one `handleSubmitAnswer` step on an answerable state
appends exactly one entry at the end, leaving all existing entries unchanged. -/
theorem C9_log_append_exactly_one :
    (∀ (outs : List TurnOutput) (s : SessionState) (t q : Nat) (a : Int) (f : Bool),
      (askQuestionGo outs s t q a f).log = s.log) ∧
    (∀ (s : SessionState) (mo : Assessment) (outs : List TurnOutput),
      s.phase = "IN_PROGRESS" →
      (s.followUpActive = true ∧ s.paused.isSome) ∨
        questionTruthy s.plan s.topicIndex s.questionIndex →
      (handleSubmitAnswerStep s mo outs).log
        = s.log ++ [mkLogEntry mo s.followUpActive]) :=
  ⟨askQuestionGo_log, handleSubmitAnswerStep_log⟩

/-- Witness for C9: one asking step appends nothing; one answered planned turn
appends exactly its one entry. -/
theorem C9_witness :
    (askQuestionGo [plannedOut] (initialState examplePlan) 0 0 NEXT_QUESTION
        false).log = (initialState examplePlan).log ∧
    (handleSubmitAnswerStep (initialState examplePlan) (assessWith 1)
        [plannedOut]).log
      = (initialState examplePlan).log ++
          [mkLogEntry (assessWith 1) (initialState examplePlan).followUpActive] :=
  ⟨C9_log_append_exactly_one.1 [plannedOut] (initialState examplePlan) 0 0
      NEXT_QUESTION false,
   C9_log_append_exactly_one.2 (initialState examplePlan) (assessWith 1)
      [plannedOut] rfl (Or.inr rfl)⟩

/-! ## Claim C10 -/

/-- Claim C10: the log entry appended for an answered turn stores the Monitor's
originally requested `actionCode` verbatim - the entry is built from the raw
monitor output before the attempt governor or the action switch can escalate
or override the action. -/
theorem C10_logged_action_code_verbatim (s : SessionState) (mo : Assessment)
    (outs : List TurnOutput)
    (hphase : s.phase = "IN_PROGRESS")
    (hctx : (s.followUpActive = true ∧ s.paused.isSome) ∨
            questionTruthy s.plan s.topicIndex s.questionIndex) :
    (handleSubmitAnswerStep s mo outs).log.getLast?
      = some (mkLogEntry mo s.followUpActive) ∧
    (mkLogEntry mo s.followUpActive).actionCode
      = mo.actionCode := by
  refine ⟨?_, rfl⟩
  rw [handleSubmitAnswerStep_log s mo outs hphase hctx]
  simp [List.getLast?_concat]

/-- Witness for C10: at attempt count 2 a `Repeat` verdict is escalated to
`NextQuestion`, yet the logged entry still records action code 1. -/
theorem C10_witness :
    (handleSubmitAnswerStep
        { initialState examplePlan with attempts := 2 } (assessWith 1)
        [plannedOut]).log.getLast?
      = some (mkLogEntry (assessWith 1)
          ({ initialState examplePlan with attempts := 2 }).followUpActive) ∧
    (mkLogEntry (assessWith 1)
        ({ initialState examplePlan with attempts := 2 }).followUpActive).actionCode
      = (assessWith 1).actionCode :=
  C10_logged_action_code_verbatim
    { initialState examplePlan with attempts := 2 } (assessWith 1) [plannedOut]
    rfl (Or.inr rfl)

/-! ## Resolver branch equations -/

/-- Resolver branch: the requested `NextTopic` at an existing question is
downgraded to `NextQuestion` and the position is kept. -/
theorem resolve_downgrade_eq (plan : Option Plan) (t q : Nat) (tp : Topic)
    (qt : String) (ht : topicAt plan t = some tp)
    (hq : tp.questions.get? q = some qt) :
    resolveAction plan t q NEXT_TOPIC false =
      { effectiveActionCode := NEXT_QUESTION, endInterview := false,
        nextStateTopicIndex := t, nextStateQuestionIndex := q,
        plannedTopicName := tp.name, plannedQuestionText := qt } := by
  unfold resolveAction
  simp only [ht, hq]
  norm_num [NEXT_TOPIC, NEXT_QUESTION, END_INTERVIEW]

/-- Resolver branch: an exhausted topic with an existing successor topic moves
to the successor's first question with effective action `NextTopic`. -/
theorem resolve_exhausted_next_eq (plan : Option Plan) (t q : Nat) (a : Int)
    (tp ntp : Topic) (ht : topicAt plan t = some tp)
    (hq : tp.questions.get? q = none) (hn : topicAt plan (t + 1) = some ntp) :
    resolveAction plan t q a false =
      { effectiveActionCode := NEXT_TOPIC, endInterview := false,
        nextStateTopicIndex := t + 1, nextStateQuestionIndex := 0,
        plannedTopicName := ntp.name,
        plannedQuestionText := (ntp.questions.get? 0).getD "undefined" } := by
  unfold resolveAction
  simp only [ht, hq, hn]
  norm_num [NEXT_TOPIC, END_INTERVIEW]

/-- Resolver branch: a missing topic ends the interview. -/
theorem resolve_no_topic_eq (plan : Option Plan) (t q : Nat) (a : Int)
    (hT : topicAt plan t = none) :
    resolveAction plan t q a false =
      { effectiveActionCode := END_INTERVIEW, endInterview := true,
        nextStateTopicIndex := t, nextStateQuestionIndex := q,
        plannedTopicName := "Interview Conclusion",
        plannedQuestionText := "Provide closing statement." } := by
  unfold resolveAction
  simp only [hT]
  norm_num [END_INTERVIEW]

/-- Resolver branch: an exhausted topic with no successor ends the interview. -/
theorem resolve_exhausted_none_eq (plan : Option Plan) (t q : Nat) (a : Int)
    (tp : Topic) (ht : topicAt plan t = some tp)
    (hq : tp.questions.get? q = none) (hn : topicAt plan (t + 1) = none) :
    resolveAction plan t q a false =
      { effectiveActionCode := END_INTERVIEW, endInterview := true,
        nextStateTopicIndex := t, nextStateQuestionIndex := q,
        plannedTopicName := "Interview Conclusion",
        plannedQuestionText := "Provide closing statement." } := by
  unfold resolveAction
  simp only [ht, hq, hn]
  norm_num [END_INTERVIEW]

/-- The resume triple never carries `Repeat` or `Clarify`. -/
theorem resumeFromPause_action_forward (plan : Option Plan) (t q : Nat) :
    (resumeFromPause plan t q).2.2 ≠ REPEAT_QUESTION ∧
    (resumeFromPause plan t q).2.2 ≠ CLARIFY_QUESTION := by
  unfold resumeFromPause
  split
  · exact ⟨by norm_num [NEXT_QUESTION, REPEAT_QUESTION],
      by norm_num [NEXT_QUESTION, CLARIFY_QUESTION]⟩
  · split
    · exact ⟨by norm_num [NEXT_TOPIC, REPEAT_QUESTION],
        by norm_num [NEXT_TOPIC, CLARIFY_QUESTION]⟩
    · exact ⟨by norm_num [END_INTERVIEW, REPEAT_QUESTION],
        by norm_num [END_INTERVIEW, CLARIFY_QUESTION]⟩

/-- Replacing the `paused` field before assessing a digression answer does not
change the resulting state: the field is overwritten with `none`. -/
theorem digressionAssessed_paused_irrel (s : SessionState) (x : Option PausedState)
    (mo : Assessment) :
    digressionAssessed { s with paused := x } mo = digressionAssessed s mo := by
  cases s
  rfl

/-- The code's inlined resume computation agrees with resolving `NextQuestion`
relative to the paused position, for a validated plan, an existing paused
topic, and a question at the advanced position that is not the empty string
when present (an empty-string question is falsy in JavaScript and is skipped
by line 981, diverging from the resolver; see the C6 counterexample). -/
theorem resume_agrees (p : Plan) (t q : Nat) (hv : ValidPlan p) (tp : Topic)
    (ht : topicAt (some p) t = some tp)
    (hnb : ∀ qt, questionAt (some p) t (q + 1) = some qt → qt ≠ "") :
    resumeAgreesWithNextQuestion p t q := by
  unfold resumeAgreesWithNextQuestion resumeResolve nextQuestionResolve
  rcases hq1 : questionAt (some p) t (q + 1) with _ | qt
  · have htr : questionTruthy (some p) t (q + 1) = false := by
      unfold questionTruthy
      rw [hq1]
    have hq1' : tp.questions.get? (q + 1) = none := by
      unfold questionAt at hq1
      rw [ht] at hq1
      simp only [Option.some_bind] at hq1
      exact hq1
    rcases hto : topicAt (some p) (t + 1) with _ | ntp
    · have hr : resumeFromPause (some p) t q = (t + 1, 0, END_INTERVIEW) := by
        unfold resumeFromPause
        rw [htr, hto]
        rfl
      rw [hr]
      rw [resolve_no_topic_eq (some p) (t + 1) 0 END_INTERVIEW hto,
        resolve_exhausted_none_eq (some p) t (q + 1) NEXT_QUESTION tp ht hq1' hto]
      exact ⟨rfl, rfl, rfl, fun hx => by simp at hx⟩
    · have hr : resumeFromPause (some p) t q = (t + 1, 0, NEXT_TOPIC) := by
        unfold resumeFromPause
        rw [htr, hto]
        rfl
      obtain ⟨c, cs, hcase⟩ : ∃ c cs, ntp.questions = c :: cs := by
        have hmem : ntp ∈ p.topics :=
          List.get?_mem (show p.topics.get? (t + 1) = some ntp from hto)
        have hne : ntp.questions ≠ [] := (hv.2 ntp hmem).2
        cases hcs : ntp.questions with
        | nil => exact absurd hcs hne
        | cons c cs => exact ⟨c, cs, rfl⟩
      have hq0 : ntp.questions.get? 0 = some c := by
        rw [hcase]
        rfl
      rw [hr]
      rw [resolve_downgrade_eq (some p) (t + 1) 0 ntp c hto hq0,
        resolve_exhausted_next_eq (some p) t (q + 1) NEXT_QUESTION tp ntp ht hq1' hto]
      refine ⟨rfl, rfl, ?_, fun _ => ⟨rfl, rfl⟩⟩
      rw [hq0]
      rfl
  · have htr : questionTruthy (some p) t (q + 1) = true := by
      unfold questionTruthy
      rw [hq1]
      simpa using hnb qt hq1
    have hr : resumeFromPause (some p) t q = (t, q + 1, NEXT_QUESTION) := by
      unfold resumeFromPause
      rw [htr]
      rfl
    rw [hr]
    exact ⟨rfl, rfl, rfl, fun _ => ⟨rfl, rfl⟩⟩

/-! ## Claim C4 -/

/-- Claim C4: in every reachable session state the follow-up streak is at most
the ceiling 3; and when the interviewer LLM classifies a non-terminal turn as a
follow-up while the streak already sits at the ceiling, the follow-up stack is
not entered: the state is cleared (streak reset to 0, no paused entry, flag
down) and `askQuestion` re-enters with the next planned action - next question,
next topic, or `ENDED` as the position dictates. -/
theorem C4_streak_bounded_and_override :
    (∀ s : SessionState, Reachable s → s.streak ≤ MAX_FOLLOW_UP_STREAK) ∧
    (∀ (out : TurnOutput) (rest : List TurnOutput) (s : SessionState)
        (t q : Nat) (a : Int),
      (normalizeTurnOutput (resolveAction s.plan t q a false).effectiveActionCode
          out).type = "follow-up" →
      (resolveAction s.plan t q a false).effectiveActionCode ≠ END_INTERVIEW →
      s.streak = MAX_FOLLOW_UP_STREAK →
      (clearFollowUp s).streak = 0 ∧
      (clearFollowUp s).paused = none ∧
      (clearFollowUp s).followUpActive = false ∧
      askQuestionGo (out :: rest) s t q a false =
        (match forcedNextTriple s.plan t q with
         | some (t', q', a') =>
             askQuestionGo rest
               { clearFollowUp s with topicIndex := t', questionIndex := q' }
               t' q' a' false
         | none => { clearFollowUp s with phase := "ENDED" })) := by
  constructor
  · intro s hs
    exact (reachable_inv s hs).1
  · intro out rest s t q a hfu hne hstreak
    refine ⟨rfl, rfl, rfl, ?_⟩
    simp only [askQuestionGo]
    rw [if_pos ⟨hfu, hne⟩,
      if_neg (show ¬s.streak < MAX_FOLLOW_UP_STREAK by rw [hstreak]; exact lt_irrefl _)]

/-- Witness for C4: the streak bound at a concrete reachable state, and the
override evaluated with the streak at the ceiling. -/
theorem C4_witness :
    (askQuestionGo [] (initialState examplePlan) 0 0 NEXT_QUESTION false).streak
        ≤ MAX_FOLLOW_UP_STREAK ∧
    ((clearFollowUp streakLimitState).streak = 0 ∧
     (clearFollowUp streakLimitState).paused = none ∧
     (clearFollowUp streakLimitState).followUpActive = false ∧
     askQuestionGo [followUpOut, plannedOut] streakLimitState 0 0 NEXT_QUESTION false =
       askQuestionGo [plannedOut]
         { clearFollowUp streakLimitState with topicIndex := 0, questionIndex := 1 }
         0 1 NEXT_QUESTION false) :=
  ⟨C4_streak_bounded_and_override.1 _ (Reachable.init examplePlan []),
   C4_streak_bounded_and_override.2 followUpOut [plannedOut] streakLimitState 0 0
     NEXT_QUESTION (by decide) (by decide) rfl⟩

/-! ## Claim C5 -/

/-- Claim C5: assessing the answer to a follow-up digression never moves the
attempt governor's counter: in any reachable state with an active follow-up,
the whole digression-processing state change (`digressionAssessed`, which is
what `handleSubmitAnswer` applies before resuming) leaves the attempt counter
exactly as it was, and that value is the one captured in the paused state when
the digression was entered. -/
theorem C5_digression_never_touches_attempts (s : SessionState)
    (hs : Reachable s) (ps : PausedState) (hpp : s.paused = some ps)
    (hfa : s.followUpActive = true) (hphase : s.phase = "IN_PROGRESS")
    (mo : Assessment) (outs : List TurnOutput) :
    handleSubmitAnswerStep s mo outs
      = askQuestionGo outs (digressionAssessed s mo)
          (resumeFromPause s.plan ps.topicIndex ps.questionIndex).1
          (resumeFromPause s.plan ps.topicIndex ps.questionIndex).2.1
          (resumeFromPause s.plan ps.topicIndex ps.questionIndex).2.2 false ∧
    (digressionAssessed s mo).attempts = s.attempts ∧
    (digressionAssessed s mo).attempts = ps.attempts :=
  ⟨submit_followup_path s mo outs hphase hfa ps hpp, rfl,
   ((reachable_inv s hs).2.2 ps hpp).symm⟩

/-- Witness for C5: a digression entered at position `(0, 0)` with 0 attempts is
assessed; the attempt counter stays 0, the captured value. -/
theorem C5_witness :
    handleSubmitAnswerStep followUpEntered (assessWith 1) [plannedOut]
      = askQuestionGo [plannedOut]
          (digressionAssessed followUpEntered (assessWith 1)) 0 1 NEXT_QUESTION
          false ∧
    (digressionAssessed followUpEntered (assessWith 1)).attempts
      = followUpEntered.attempts ∧
    (digressionAssessed followUpEntered (assessWith 1)).attempts = 0 :=
  C5_digression_never_touches_attempts followUpEntered
    (Reachable.init examplePlan [followUpOut]) ⟨0, 0, 0, NEXT_QUESTION⟩ rfl rfl rfl
    (assessWith 1) [plannedOut]

/-! ## Claim C6 -/

/-- Claim C6 (amended): once the digression answer is assessed, the stack is
cleared and the planned flow resumes forward from the paused position: the step
equals the resume continuation, the cleared state carries no paused entry, the
result is independent of the `resumingActionCode` stored when the digression
began (it is never replayed), and the resume action is never
`Repeat`/`Clarify`.  The resume triple agrees with resolving `NextQuestion`
relative to the paused position whenever the question at the advanced position,
if present, is a non-empty string; an empty-string question (accepted by plan
validation) is falsy for line 981's truthiness test and is skipped, diverging
from the resolver - see `C6_counterexample`. -/
theorem C6_resume_forward (s : SessionState) (ps : PausedState) (mo : Assessment)
    (outs : List TurnOutput) (p : Plan)
    (hphase : s.phase = "IN_PROGRESS") (hfa : s.followUpActive = true)
    (hpp : s.paused = some ps) (hplan : s.plan = some p)
    (hv : ValidPlan p) (tp : Topic)
    (ht : topicAt (some p) ps.topicIndex = some tp) :
    handleSubmitAnswerStep s mo outs
      = askQuestionGo outs (digressionAssessed s mo)
          (resumeFromPause s.plan ps.topicIndex ps.questionIndex).1
          (resumeFromPause s.plan ps.topicIndex ps.questionIndex).2.1
          (resumeFromPause s.plan ps.topicIndex ps.questionIndex).2.2 false ∧
    s.plan = some p ∧
    (digressionAssessed s mo).paused = none ∧
    (digressionAssessed s mo).followUpActive = false ∧
    (digressionAssessed s mo).followUpQuestionText = none ∧
    (∀ c : Int,
      handleSubmitAnswerStep
          { s with paused := some { ps with resumingActionCode := c } } mo outs
        = handleSubmitAnswerStep s mo outs) ∧
    (resumeFromPause s.plan ps.topicIndex ps.questionIndex).2.2 ≠ REPEAT_QUESTION ∧
    (resumeFromPause s.plan ps.topicIndex ps.questionIndex).2.2 ≠ CLARIFY_QUESTION ∧
    ((∀ qt, questionAt (some p) ps.topicIndex (ps.questionIndex + 1) = some qt →
        qt ≠ "") →
      resumeAgreesWithNextQuestion p ps.topicIndex ps.questionIndex) := by
  refine ⟨submit_followup_path s mo outs hphase hfa ps hpp, hplan, rfl, rfl, rfl, ?_,
    (resumeFromPause_action_forward s.plan ps.topicIndex ps.questionIndex).1,
    (resumeFromPause_action_forward s.plan ps.topicIndex ps.questionIndex).2,
    resume_agrees p ps.topicIndex ps.questionIndex hv tp ht⟩
  intro c
  rw [submit_followup_path { s with paused := some { ps with resumingActionCode := c } }
        mo outs hphase hfa { ps with resumingActionCode := c } rfl,
      submit_followup_path s mo outs hphase hfa ps hpp,
      digressionAssessed_paused_irrel]

/-- Witness for C6: the digression at `(0, 0)` resumes with the step equation
evaluated on the example plan. -/
theorem C6_witness :
    handleSubmitAnswerStep followUpEntered (assessWith 1) [plannedOut]
      = askQuestionGo [plannedOut]
          (digressionAssessed followUpEntered (assessWith 1)) 0 1 NEXT_QUESTION
          false :=
  (C6_resume_forward followUpEntered ⟨0, 0, 0, NEXT_QUESTION⟩ (assessWith 1)
    [plannedOut] examplePlan rfl rfl rfl rfl (by decide) exampleTopic0 rfl).1

/-- Counterexample to C6 as stated: on a plan that passes the program's
validation but whose question at the advanced position `(0, 1)` is the empty
string, the Action Resolver applied with `NextQuestion` relative to the paused
position `(0, 0)` targets `(0, 1)`, yet the program's resume treats the empty
string as falsy (line 981) and skips to the next topic: the session lands on
`(1, 0)`.  The resume is therefore not an application of the Action Resolver
with `NextQuestion` relative to the paused position. -/
theorem C6_counterexample :
    ValidPlan emptyQuestionPlan ∧
    questionAt (some emptyQuestionPlan) 0 1 = some "" ∧
    emptyQuestionDigression.paused
      = some { topicIndex := 0, questionIndex := 0, attempts := 0,
               resumingActionCode := NEXT_QUESTION } ∧
    (nextQuestionResolve emptyQuestionPlan 0 0).effectiveActionCode
      = NEXT_QUESTION ∧
    (nextQuestionResolve emptyQuestionPlan 0 0).nextStateTopicIndex = 0 ∧
    (nextQuestionResolve emptyQuestionPlan 0 0).nextStateQuestionIndex = 1 ∧
    (handleSubmitAnswerStep emptyQuestionDigression (assessWith 1)
        [plannedOut]).topicIndex = 1 ∧
    (handleSubmitAnswerStep emptyQuestionDigression (assessWith 1)
        [plannedOut]).questionIndex = 0 ∧
    ¬ resumeAgreesWithNextQuestion emptyQuestionPlan 0 0 := by
  refine ⟨by decide, rfl, rfl, rfl, rfl, rfl, rfl, rfl, ?_⟩
  intro h
  exact absurd h.2.1 (by decide)

end MockInterview
